import Mathlib

/-!
Verification of the asyncqlio/katagawa query core
=================================================

A shallow embedding, in Lean 4, of the query-execution core of the
asyncqlio (née katagawa) object-relational mapper:

* `orm/query.py` — the `_ResultGenerator` streaming grouping algorithm and
  the `SelectQuery` / `InsertQuery` / `RowUpdateQuery` / `RowDeleteQuery`
  builders with their `generate_sql` compilers;
* `orm/schema/column.py` — column equality dispatch and alias naming.

Python methods become pure Lean functions over explicit state; the async
cursor becomes a list of pending rows; Python dictionaries become ordered
association lists with insert-or-replace semantics; exceptions become
`Except`.  Collaborators whose code is not part of the two embedded files
(the operator layer, the row-persistence layer, the backend parameter
emitter) are modelled from the specification and marked as such in their
doc comments.
-/

namespace Asyncqlio

/-! ## Decimal rendering of numbers

Python's `format` call renders the decimal numeral of `n`.  We embed it
with an explicit fuelled digit loop so that every use is computable by the
kernel, and we prove a decode round-trip so that the rendering is provably
injective (needed for placeholder-uniqueness claims). -/

/-- Fuelled decimal digit emission, most significant digit first: mirrors
how Python's `str(int)` renders a nonnegative integer. -/
def natToDecAux : Nat → Nat → List Char
  | 0, _ => []
  | fuel + 1, n =>
    if n < 10 then [Nat.digitChar n]
    else natToDecAux fuel (n / 10) ++ [Nat.digitChar (n % 10)]

/-- The decimal numeral of a natural number, as produced by Python's
`format` call for `n ≥ 0`. -/
def natToDec (n : Nat) : String :=
  ⟨natToDecAux (n + 1) n⟩

/-- The decimal numeral of a Python `int` (used for `LIMIT`/`OFFSET`
interpolation, where the value may in principle be negative). -/
def intToDec (i : Int) : String :=
  if i < 0 then "-" ++ natToDec i.natAbs else natToDec i.natAbs

/-- Numeric value of a decimal digit character. -/
def decDigit (c : Char) : Nat := c.toNat - 48

/-- Decode a digit string back to the number it denotes. -/
def decodeDec (l : List Char) : Nat :=
  l.foldl (fun acc c => acc * 10 + decDigit c) 0

theorem decDigit_digitChar {n : Nat} (h : n < 10) :
    decDigit (Nat.digitChar n) = n := by
  interval_cases n <;> rfl

theorem natToDecAux_decode (fuel : Nat) :
    ∀ n acc, n < 10 ^ fuel →
      (natToDecAux fuel n).foldl (fun acc c => acc * 10 + decDigit c) acc =
        acc * 10 ^ (natToDecAux fuel n).length + n := by
  induction fuel with
  | zero =>
    intro n acc hn
    simp only [Nat.pow_zero, Nat.lt_one_iff] at hn
    subst hn
    simp [natToDecAux]
  | succ fuel ih =>
    intro n acc hn
    by_cases h10 : n < 10
    · simp [natToDecAux, h10, decDigit_digitChar h10]
    · have hdiv : n / 10 < 10 ^ fuel := by
        rw [Nat.div_lt_iff_lt_mul (by omega)]
        calc n < 10 ^ (fuel + 1) := hn
        _ = 10 ^ fuel * 10 := by ring
      simp only [natToDecAux, h10, if_false, List.foldl_append, List.length_append]
      rw [ih (n / 10) acc hdiv]
      simp only [List.foldl_cons, List.foldl_nil, List.length_cons, List.length_nil]
      have hmod : n % 10 < 10 := Nat.mod_lt _ (by omega)
      rw [decDigit_digitChar hmod]
      have hpow : 10 ^ ((natToDecAux fuel (n / 10)).length + (0 + 1)) =
          10 ^ (natToDecAux fuel (n / 10)).length * 10 := by ring
      rw [hpow, ← Nat.mul_assoc]
      omega

theorem decodeDec_natToDec (n : Nat) : decodeDec (natToDec n).data = n := by
  have h : n < 10 ^ (n + 1) := by
    calc n < 10 ^ n := Nat.lt_pow_self (by omega) n
    _ ≤ 10 ^ (n + 1) := Nat.pow_le_pow_right (by omega) (by omega)
  simpa [decodeDec, natToDec] using natToDecAux_decode (n + 1) n 0 h

theorem natToDec_injective : Function.Injective natToDec := by
  intro m n h
  have := congrArg (fun s => decodeDec s.data) h
  simpa [decodeDec_natToDec] using this

/-! ## `_ResultGenerator` — streaming primary-key run grouping

Embeds `_ResultGenerator._fill` / `__anext__` from `orm/query.py`.  A row is
an opaque value of type `ρ`; `pk : ρ → κ` extracts the primary-key tuple
that the Python code reads via `row[col.alias_name(quoted=False)] for col in
table.primary_key.columns`.  The generator state is the `_result_deque`
buffer together with the not-yet-fetched tail of the cursor. -/

namespace ResultGenerator

/-- State of one `_ResultGenerator`: the `_result_deque` buffer and the rows
the cursor has not yet produced (`fetch_row` returns `none` past the end). -/
structure GenState (ρ : Type) where
  buffer : List ρ
  cursor : List ρ
deriving Repr, DecidableEq

variable {ρ κ : Type} [DecidableEq κ]

/-- The `while True` loop of `_ResultGenerator._fill`: fetch rows, append
them to the deque, count run-on rows whose primary key equals `lastPkey`,
and stop (leaving the fetched row in the deque but uncounted) at the first
key mismatch.  Returns (deque, remaining cursor, `rows_filled`). -/
def fillLoop (pk : ρ → κ) : Option κ → List ρ → List ρ → Nat → List ρ × List ρ × Nat
  | _, [], buffer, rowsFilled => (buffer, [], rowsFilled)
  | lastPkey, row :: rest, buffer, rowsFilled =>
    match lastPkey with
    | none => fillLoop pk (some (pk row)) rest (buffer ++ [row]) (rowsFilled + 1)
    | some k =>
      if pk row = k then fillLoop pk (some k) rest (buffer ++ [row]) (rowsFilled + 1)
      else (buffer ++ [row], rest, rowsFilled)

/-- `_ResultGenerator._fill`: peek the deque for a leftover row from last
time; if present its key seeds the run and `rows_filled` starts at 1,
otherwise the run starts empty. -/
def fill (pk : ρ → κ) (st : GenState ρ) : List ρ × List ρ × Nat :=
  match st.buffer with
  | [] => fillLoop pk none st.cursor [] 0
  | first :: _ => fillLoop pk (some (pk first)) st.cursor st.buffer 1

/-- `_ResultGenerator.__anext__`: run `_fill`; if zero rows were filled the
stream ends (`StopAsyncIteration`, here `none`); otherwise pop `filled`
rows off the left of the deque as one group. -/
def anext (pk : ρ → κ) (st : GenState ρ) : Option (List ρ × GenState ρ) :=
  let r := fill pk st
  if r.2.2 = 0 then none
  else some (r.1.take r.2.2, ⟨r.1.drop r.2.2, r.2.1⟩)

/-- Driving the generator to exhaustion, collecting the groups it yields.
Each successful `anext` consumes at least one row, so fuel equal to the
number of pending rows plus one suffices. -/
def streamAux (pk : ρ → κ) : Nat → GenState ρ → List (List ρ)
  | 0, _ => []
  | fuel + 1, st =>
    match anext pk st with
    | none => []
    | some (g, st') => g :: streamAux pk fuel st'

/-- The full sequence of row groups the generator yields for a cursor
producing `rows`, starting from an empty deque. -/
def streamGroups (pk : ρ → κ) (rows : List ρ) : List (List ρ) :=
  streamAux pk (rows.length + 1) ⟨[], rows⟩

theorem length_dropWhile_le {α : Type} (p : α → Bool) (l : List α) :
    (l.dropWhile p).length ≤ l.length := by
  induction l with
  | nil => simp [List.dropWhile]
  | cons a l ih =>
    rw [List.dropWhile_cons]
    split
    · exact Nat.le_succ_of_le ih
    · exact Nat.le_refl _

/-- Specification-side grouping: split a list into its maximal runs of
consecutive elements sharing the primary key of the run's first element. -/
def runsBy (pk : ρ → κ) : List ρ → List (List ρ)
  | [] => []
  | r :: rest =>
    (r :: rest.takeWhile (fun x => pk x = pk r)) ::
      runsBy pk (rest.dropWhile (fun x => pk x = pk r))
termination_by l => l.length
decreasing_by
  simp only [List.length_cons]
  exact Nat.lt_succ_of_le (length_dropWhile_le _ _)

theorem fillLoop_some (pk : ρ → κ) (k : κ) :
    ∀ (cursor buffer : List ρ) (n : Nat),
      fillLoop pk (some k) cursor buffer n =
        match cursor.dropWhile (fun x => decide (pk x = k)) with
        | [] => (buffer ++ cursor, [], n + (cursor.takeWhile (fun x => decide (pk x = k))).length)
        | r :: rest =>
            (buffer ++ cursor.takeWhile (fun x => decide (pk x = k)) ++ [r], rest,
              n + (cursor.takeWhile (fun x => decide (pk x = k))).length)
  | [], buffer, n => by simp [fillLoop]
  | row :: rest, buffer, n => by
    by_cases h : pk row = k
    · have hd : decide (pk row = k) = true := decide_eq_true h
      have := fillLoop_some pk k rest (buffer ++ [row]) (n + 1)
      simp only [fillLoop, h, if_true, List.takeWhile_cons, List.dropWhile_cons, hd, this]
      cases hdrop : rest.dropWhile (fun x => decide (pk x = k)) with
      | nil => simp [hdrop, List.append_assoc]; omega
      | cons r rs => simp [hdrop, List.append_assoc]; omega
    · simp [fillLoop, h, List.takeWhile_cons, List.dropWhile_cons]

/-- Starting `_fill` with an empty deque on a nonempty cursor is the same as
starting it with the first cursor row already buffered. -/
theorem fill_nil_cons (pk : ρ → κ) (r : ρ) (rest : List ρ) :
    fill pk ⟨[], r :: rest⟩ = fill pk ⟨[r], rest⟩ := by
  simp [fill, fillLoop]

/-- `__anext__` on a buffered seed row `b`: the yielded group is `b`
followed by exactly the cursor rows sharing `b`'s key, and the first row
with a different key (if any) stays buffered as the next seed. -/
theorem anext_seed (pk : ρ → κ) (b : ρ) (cursor : List ρ) :
    anext pk ⟨[b], cursor⟩ =
      some (b :: cursor.takeWhile (fun x => pk x = pk b),
        ⟨(cursor.dropWhile (fun x => pk x = pk b)).take 1,
         (cursor.dropWhile (fun x => pk x = pk b)).drop 1⟩) := by
  simp only [anext, fill, fillLoop_some]
  cases hdrop : cursor.dropWhile (fun x => decide (pk x = pk b)) with
  | nil =>
    have htake : cursor.takeWhile (fun x => decide (pk x = pk b)) = cursor := by
      have := List.takeWhile_append_dropWhile
        (p := fun x => decide (pk x = pk b)) (l := cursor)
      simpa [hdrop] using this
    have hlen : ¬ (1 + cursor.length = 0) := by omega
    have hfull : (1 : Nat) + cursor.length = ([b] ++ cursor).length := by simp; omega
    simp [htake, hlen, hfull, List.take_length, List.drop_length]
  | cons r rs =>
    have hlen : ¬ (1 + (cursor.takeWhile (fun x => decide (pk x = pk b))).length = 0) := by
      omega
    have hl : (b :: cursor.takeWhile (fun x => decide (pk x = pk b))).length =
        1 + (cursor.takeWhile (fun x => decide (pk x = pk b))).length := by
      simp [Nat.add_comm]
    have hassoc : [b] ++ cursor.takeWhile (fun x => decide (pk x = pk b)) ++ [r] =
        (b :: cursor.takeWhile (fun x => decide (pk x = pk b))) ++ [r] := by simp
    simp only [hlen, if_false, hassoc, List.take_left' hl, List.drop_left' hl]
    simp

theorem anext_empty (pk : ρ → κ) : anext pk (⟨[], []⟩ : GenState ρ) = none := by
  simp [anext, fill, fillLoop]

theorem anext_nil_cons (pk : ρ → κ) (r : ρ) (rest : List ρ) :
    anext pk ⟨[], r :: rest⟩ = anext pk ⟨[r], rest⟩ := by
  unfold anext
  rw [fill_nil_cons]

theorem streamAux_empty (pk : ρ → κ) (fuel : Nat) :
    streamAux pk fuel (⟨[], []⟩ : GenState ρ) = [] := by
  cases fuel with
  | zero => rfl
  | succ f => simp [streamAux, anext_empty]

theorem streamAux_seed (pk : ρ → κ) :
    ∀ (fuel : Nat) (b : ρ) (cursor : List ρ), cursor.length < fuel →
      streamAux pk fuel ⟨[b], cursor⟩ = runsBy pk (b :: cursor) := by
  intro fuel
  induction fuel with
  | zero => intro b cursor h; omega
  | succ fuel ih =>
    intro b cursor h
    rw [streamAux, anext_seed]
    conv_rhs => rw [runsBy]
    cases hdrop : cursor.dropWhile (fun x => decide (pk x = pk b)) with
    | nil => simp [streamAux_empty, runsBy]
    | cons d ds =>
      have hsplit := List.takeWhile_append_dropWhile
        (p := fun x => decide (pk x = pk b)) (l := cursor)
      have hlen : ds.length < fuel := by
        have := congrArg List.length hsplit
        simp [hdrop] at this
        omega
      simp [ih d ds hlen]

theorem streamGroups_eq_runsBy (pk : ρ → κ) (rows : List ρ) :
    streamGroups pk rows = runsBy pk rows := by
  cases rows with
  | nil => simp [streamGroups, streamAux_empty, runsBy]
  | cons r rest =>
    show streamAux pk (rest.length + 1 + 1) ⟨[], r :: rest⟩ = _
    rw [streamAux, anext_nil_cons, ← streamAux]
    exact streamAux_seed pk (rest.length + 2) r rest (by omega)

end ResultGenerator

/-- Claim C1: for every cursor, the result stream yields exactly one group
per maximal run of consecutive physical rows sharing the same primary-key
tuple, in cursor order (`streamGroups = runsBy`); the first row whose
primary key differs from the current run's key is not consumed into that
run but remains buffered as the seed of the next run (the state returned by
`anext` buffers exactly the first row past the run); and the concrete input
`[(1, a), (1, b), (2, c)]` (primary key first) yields two groups, of sizes 2
(pk 1) and then 1 (pk 2). -/
theorem claim_C1_primary_key_run_grouping :
    (∀ {ρ κ : Type} [DecidableEq κ] (pk : ρ → κ) (rows : List ρ),
        ResultGenerator.streamGroups pk rows = ResultGenerator.runsBy pk rows) ∧
    (∀ {ρ κ : Type} [DecidableEq κ] (pk : ρ → κ) (r : ρ) (rest : List ρ),
        ResultGenerator.anext pk ⟨[], r :: rest⟩ =
          some (r :: rest.takeWhile (fun x => pk x = pk r),
            ⟨(rest.dropWhile (fun x => pk x = pk r)).take 1,
             (rest.dropWhile (fun x => pk x = pk r)).drop 1⟩)) ∧
    ResultGenerator.streamGroups (fun row : Nat × String => row.1)
        [(1, "a"), (1, "b"), (2, "c")] =
      [[(1, "a"), (1, "b")], [(2, "c")]] := by
  refine ⟨?_, ?_, ?_⟩
  · intro ρ κ _ pk rows
    exact ResultGenerator.streamGroups_eq_runsBy pk rows
  · intro ρ κ _ pk r rest
    rw [ResultGenerator.anext_nil_cons]
    exact ResultGenerator.anext_seed pk r rest
  · rfl

/-! ## `SelectQuery.generate_sql` — SQL compilation

Embeds `SelectQuery` and its `generate_sql` / `get_required_join_paths`
from `orm/query.py`, plus `Column.alias_name` / `quoted_fullname` from
`orm/schema/column.py`.  A column is identified by the pair
`(owning table name, column name)`; a table carries its own columns and its
declared relationships. -/

namespace SelectSql

/-- An identifier between double quotes (the `__quoted_name__` of a table,
or `Column.quoted_name`). -/
def quoteId (s : String) : String := "\"" ++ s ++ "\""

/-- `Column.quoted_fullname`: `"table"."column"`, from the `(table name,
column name)` pair that identifies a projected column. -/
def quoted_fullname (p : String × String) : String :=
  "\"" ++ p.1 ++ "\".\"" ++ p.2 ++ "\""

/-- `Column.alias_name`: `t_<table name>_<column name>`, optionally
quoted. -/
def alias_name (tablename colname : String) (quoted : Bool) : String :=
  let fmt := "t_" ++ tablename ++ "_" ++ colname
  if quoted then "\"" ++ fmt ++ "\"" else fmt

/-- A table as `generate_sql` consumes it: its name and the names of its
columns in declaration order (`iter_columns`). -/
structure TableCore where
  tablename : String
  columns : List String
deriving Repr, DecidableEq

/-- A relationship as `get_required_join_paths` consumes it: its load
strategy, foreign table, and the two join columns. -/
structure Relationship where
  load_type : String
  foreign_table : TableCore
  join_col1 : String × String
  join_col2 : String × String
deriving Repr, DecidableEq

/-- The primary table of a query: its own columns plus its declared
relationships (`iter_relationships`). -/
structure Table where
  core : TableCore
  relationships : List Relationship
deriving Repr, DecidableEq

/-- Modelled from the spec: the backend's `emit_param` placeholder factory
(the backend is an external collaborator, §6); like the factories written
out in `InsertQuery.generate_sql`, each fresh counter value `n` yields the
placeholder name `param_n`. -/
def emit_param (n : Nat) : String := "param_" ++ natToDec n

/-- Modelled from the spec: a predicate of the Predicate/Operator layer
(`orm/operators.py`, not under `src/`).  Per §4.1 it holds a column and an
optional bound value; comparison against a value binds one parameter,
a value-free predicate binds none. -/
structure Condition where
  column : String × String
  op : String
  value : Option String
deriving Repr, DecidableEq

/-- Modelled from the spec: `BaseOperator.generate_sql(emit_param, counter)`
produces `(sql_fragment, placeholder_name_or_none, bound_value_or_none)`
(§4.1), consuming one counter value per bound parameter. -/
def condGenSql (emit : Nat → String) (c : Condition) (counter : Nat) :
    (String × Option String × Option String) × Nat :=
  match c.value with
  | some v =>
    ((quoted_fullname c.column ++ " " ++ c.op ++ " " ++ emit counter,
      some (emit counter), some v), counter + 1)
  | none => ((quoted_fullname c.column ++ " " ++ c.op, none, none), counter)

/-- Modelled from the spec: a `Sorter` (`AscSorter`/`DescSorter` of the
operator layer) wraps one or more column names and a direction. -/
structure Sorter where
  direction : String
  cols : List String
deriving Repr, DecidableEq

/-- Modelled from the spec: `Sorter.generate_sql(emit_param, counter)`
emits the ORDER BY fragment and consumes the shared counter identically to
predicates, but never binds a parameter (§4.1). -/
def sorterGenSql (s : Sorter) (counter : Nat) : String × Nat :=
  (String.intercalate ", " s.cols ++ " " ++ s.direction, counter + s.cols.length)

/-- The builder state of a `SelectQuery`: target table, accumulated
conditions, optional limit, offset and orderer.  (The claims below concern
queries whose table has been set, so the table field is total.) -/
structure SelectQuery where
  table : Table
  conditions : List Condition
  row_limit : Option Int
  row_offset : Option Int
  orderer : Option Sorter
deriving Repr, DecidableEq

/-- `SelectQuery.get_required_join_paths`: the foreign tables and `JOIN`
clauses of every relationship whose load strategy is `"joined"`, in
declaration order. -/
def get_required_join_paths (t : Table) : List TableCore × List String :=
  let rels := t.relationships.filter (fun r => r.load_type == "joined")
  (rels.map (fun r => r.foreign_table),
    rels.map (fun r =>
      "JOIN " ++ quoteId r.foreign_table.tablename ++ " " ++
        "ON " ++ quoted_fullname r.join_col1 ++ " = " ++ quoted_fullname r.join_col2))

/-- The projected `(owning table, column)` pairs of
`itertools.chain(self.table.iter_columns(), *[tbl.iter_columns() for tbl in
foreign_tables])` in `generate_sql`. -/
def projectedColumns (t : Table) : List (String × String) :=
  t.core.columns.map (fun c => (t.core.tablename, c)) ++
    (get_required_join_paths t).1.flatMap
      (fun ft => ft.columns.map (fun c => (ft.tablename, c)))

/-- One entry of `column_names`: the quoted table dot quoted column,
then ` AS ` and the quoted alias, exactly as the format string in
`generate_sql` builds it. -/
def columnNameSql (p : String × String) : String :=
  "\"" ++ p.1 ++ "\".\"" ++ p.2 ++ "\" AS " ++ alias_name p.1 p.2 true

/-- A Python `dict` as an insertion-ordered association list:
`params[name] = val` replaces in place or appends. -/
def dictInsert (d : List (String × String)) (k v : String) :
    List (String × String) :=
  if d.any (fun p => p.1 == k) then
    d.map (fun p => if p.1 == k then (p.1, v) else p)
  else d ++ [(k, v)]

/-- The `for condition in self.conditions` loop of `generate_sql`,
threading the shared counter, the `params` dict and the `c_sql` fragment
list. -/
def condLoop (emit : Nat → String) :
    List Condition → Nat → List (String × String) → List String →
      Nat × List (String × String) × List String
  | [], counter, params, c_sql => (counter, params, c_sql)
  | c :: rest, counter, params, c_sql =>
    let r := condGenSql emit c counter
    let params' :=
      match r.1.2.1, r.1.2.2 with
      | some n, some v => dictInsert params n v
      | _, _ => params
    condLoop emit rest r.2 params' (c_sql ++ [r.1.1])

/-- `SelectQuery.generate_sql`: compile the query to `(sql text, params)`.
Mirrors the source statement by statement: the fresh counter, the
projection with aliases, the condition loop, then `JOIN`s, `WHERE`,
`LIMIT`, `OFFSET` and `ORDER BY` appended in that textual order. -/
def generate_sql (q : SelectQuery) : String × List (String × String) :=
  let jp := get_required_join_paths q.table
  let column_names := (projectedColumns q.table).map columnNameSql
  let fmt := "SELECT " ++ String.intercalate ", " column_names ++ " FROM " ++
    quoteId q.table.core.tablename ++ " "
  let r := condLoop emit_param q.conditions 0 [] []
  let fmt := fmt ++ String.intercalate " " jp.2
  let fmt := if r.2.2.isEmpty then fmt
    else fmt ++ " WHERE " ++ String.intercalate " AND " r.2.2
  let fmt := match q.row_limit with
    | some n => fmt ++ " LIMIT " ++ intToDec n
    | none => fmt
  let fmt := match q.row_offset with
    | some n => fmt ++ " OFFSET " ++ intToDec n
    | none => fmt
  let fmt := match q.orderer with
    | some s => fmt ++ " ORDER BY " ++ (sorterGenSql s r.1).1
    | none => fmt
  (fmt, r.2.1)

/-- The placeholder names generated during one compile call, in emission
order. -/
def condNames (emit : Nat → String) : List Condition → Nat → List String
  | [], _ => []
  | c :: rest, counter =>
    let r := condGenSql emit c counter
    (match r.1.2.1 with | some n => [n] | none => []) ++ condNames emit rest r.2

/-- All placeholder names generated by `generate_sql` (sorters never
generate placeholder names). -/
def placeholderNames (q : SelectQuery) : List String :=
  condNames emit_param q.conditions 0

/-- The condition fragments accumulated into `c_sql`, with the counter
threaded exactly as in the loop. -/
def condFrags (emit : Nat → String) : List Condition → Nat → List String
  | [], _ => []
  | c :: rest, counter =>
    let r := condGenSql emit c counter
    r.1.1 :: condFrags emit rest r.2

/-- The number of conditions that bind a value. -/
def numBinds (conds : List Condition) : Nat :=
  (conds.filter (fun c => c.value.isSome)).length

theorem emit_param_injective : Function.Injective emit_param := by
  intro a b h
  have hdrop : ∀ n : Nat, ((emit_param n).data).drop 6 = (natToDec n).data := by
    intro n
    show (("param_" ++ natToDec n).data).drop 6 = _
    rw [String.data_append]
    have h6 : ("param_".data).length = 6 := rfl
    rw [← h6]
    exact List.drop_left _ _
  have := congrArg (fun s : String => decodeDec (s.data.drop 6)) h
  simp only [hdrop, decodeDec_natToDec] at this
  exact this

theorem condNames_eq_range (conds : List Condition) :
    ∀ counter, condNames emit_param conds counter =
      (List.range (numBinds conds)).map (fun i => emit_param (counter + i)) := by
  induction conds with
  | nil => intro counter; simp [condNames, numBinds]
  | cons c rest ih =>
    intro counter
    cases hv : c.value with
    | none =>
      simp only [condNames, condGenSql, hv, numBinds, List.filter_cons,
        Option.isSome_none, Bool.false_eq_true, if_false]
      simpa [numBinds] using ih counter
    | some v =>
      have hnb : numBinds (c :: rest) = numBinds rest + 1 := by
        simp [numBinds, List.filter_cons, hv]
      simp only [condNames, condGenSql, hv]
      rw [ih (counter + 1), hnb, List.range_succ_eq_map, List.map_cons, List.map_map]
      simp only [Nat.add_zero, List.singleton_append]
      refine congrArg _ ?_
      apply List.map_congr_left
      intro i _
      show emit_param _ = emit_param _
      exact congrArg emit_param (by omega)

theorem condLoop_spec :
    ∀ (conds : List Condition) (counter : Nat) (params : List (String × String))
      (c_sql : List String),
      (∀ p ∈ params, ∃ j, j < counter ∧ p.1 = emit_param j) →
      (condLoop emit_param conds counter params c_sql).1 = counter + numBinds conds ∧
      (condLoop emit_param conds counter params c_sql).2.1.length =
        params.length + numBinds conds ∧
      (∀ p ∈ (condLoop emit_param conds counter params c_sql).2.1,
        ∃ j, j < counter + numBinds conds ∧ p.1 = emit_param j) ∧
      (condLoop emit_param conds counter params c_sql).2.2 =
        c_sql ++ condFrags emit_param conds counter := by
  intro conds
  induction conds with
  | nil =>
    intro counter params c_sql hp
    refine ⟨by simp [condLoop, numBinds], by simp [condLoop, numBinds], ?_, ?_⟩
    · simpa [condLoop, numBinds] using hp
    · simp [condLoop, condFrags]
  | cons c rest ih =>
    intro counter params c_sql hp
    cases hv : c.value with
    | none =>
      have hnb : numBinds (c :: rest) = numBinds rest := by
        simp [numBinds, List.filter_cons, hv]
      have step := ih counter params
        (c_sql ++ [quoted_fullname c.column ++ " " ++ c.op]) hp
      simp only [condLoop, condGenSql, hv]
      rw [hnb]
      refine ⟨step.1, step.2.1, step.2.2.1, ?_⟩
      rw [step.2.2.2]
      simp [condFrags, condGenSql, hv, List.append_assoc]
    | some v =>
      have hnb : numBinds (c :: rest) = numBinds rest + 1 := by
        simp [numBinds, List.filter_cons, hv]
      have hfresh : params.any (fun p => p.1 == emit_param counter) = false := by
        rw [List.any_eq_false]
        intro p hp'
        simp only [beq_iff_eq]
        obtain ⟨j, hj, hpj⟩ := hp p hp'
        intro he
        have := emit_param_injective (hpj ▸ he)
        omega
      have hins : dictInsert params (emit_param counter) v =
          params ++ [(emit_param counter, v)] := by
        simp [dictInsert, hfresh]
      have hp' : ∀ p ∈ params ++ [(emit_param counter, v)],
          ∃ j, j < counter + 1 ∧ p.1 = emit_param j := by
        intro p hmem
        rcases List.mem_append.mp hmem with h | h
        · obtain ⟨j, hj, hpj⟩ := hp p h
          exact ⟨j, by omega, hpj⟩
        · rcases List.mem_singleton.mp h with rfl
          exact ⟨counter, by omega, rfl⟩
      have step := ih (counter + 1) (params ++ [(emit_param counter, v)])
        (c_sql ++ [quoted_fullname c.column ++ " " ++ c.op ++ " " ++ emit_param counter])
        hp'
      have harith : counter + 1 + numBinds rest = counter + numBinds (c :: rest) := by
        omega
      simp only [condLoop, condGenSql, hv, hins]
      refine ⟨by rw [step.1]; omega, ?_, ?_, ?_⟩
      · rw [step.2.1]
        simp [hnb]
        omega
      · intro p hmem
        obtain ⟨j, hj, hpj⟩ := step.2.2.1 p hmem
        exact ⟨j, by omega, hpj⟩
      · rw [step.2.2.2]
        simp [condFrags, condGenSql, hv, List.append_assoc]

/-- Claim C2: for every `SelectQuery`, the placeholder names generated
within one `generate_sql` call are pairwise unique, and their number equals
the number of values bound into the returned parameter map. -/
theorem claim_C2_placeholder_uniqueness (q : SelectQuery) :
    (placeholderNames q).Nodup ∧
      (generate_sql q).2.length = (placeholderNames q).length := by
  constructor
  · rw [placeholderNames, condNames_eq_range]
    refine (List.nodup_range _).map ?_
    intro a b h
    have := emit_param_injective h
    omega
  · have h := condLoop_spec q.conditions 0 [] [] (by simp)
    have hsnd : (generate_sql q).2 = (condLoop emit_param q.conditions 0 [] []).2.1 := by
      simp only [generate_sql]
    rw [hsnd, h.2.1, placeholderNames, condNames_eq_range]
    simp

/-- Claim C2 witness: a concrete query with two binding conditions and one
value-free condition has two pairwise-distinct placeholder names and two
bound values. -/
theorem claim_C2_placeholder_uniqueness_witness :
    (placeholderNames
        { table := { core := { tablename := "t", columns := ["id"] },
                     relationships := [] },
          conditions :=
            [{ column := ("t", "id"), op := "=", value := some "1" },
             { column := ("t", "name"), op := "IS NULL", value := none },
             { column := ("t", "id"), op := "<", value := some "9" }],
          row_limit := none, row_offset := none, orderer := none }).Nodup := by
  have := claim_C2_placeholder_uniqueness
    { table := { core := { tablename := "t", columns := ["id"] },
                 relationships := [] },
      conditions :=
        [{ column := ("t", "id"), op := "=", value := some "1" },
         { column := ("t", "name"), op := "IS NULL", value := none },
         { column := ("t", "id"), op := "<", value := some "9" }],
      row_limit := none, row_offset := none, orderer := none }
  exact this.1

/-- `generate_sql` as a method call on the builder object: the Python
method only reads `self` (no field of `self` is ever assigned) and creates
its `itertools.count()` counter locally on every call, so the method is a
pure read of the builder state. -/
def generate_sql_method : StateM SelectQuery (String × List (String × String)) := do
  let q ← get
  return generate_sql q

/-- Claim C4: for every `SelectQuery` with fixed builder state, calling
`generate_sql` twice without modifying the query in between returns the
same SQL text and the same parameter map, and the builder state after each
call is unchanged (compilation neither consumes nor mutates builder
state). -/
theorem claim_C4_generate_sql_deterministic (q : SelectQuery) :
    (generate_sql_method.run q).2 = q ∧
    (generate_sql_method.run ((generate_sql_method.run q).2)).1 =
      (generate_sql_method.run q).1 ∧
    (generate_sql_method.run ((generate_sql_method.run q).2)).2 = q :=
  ⟨rfl, rfl, rfl⟩

theorem condFrags_length (conds : List Condition) :
    ∀ counter, (condFrags emit_param conds counter).length = conds.length := by
  induction conds with
  | nil => intro counter; simp [condFrags]
  | cons c rest ih =>
    intro counter
    cases hv : c.value <;> simp [condFrags, condGenSql, hv, ih]

/-- The SELECT/FROM/JOIN prefix of the compiled text (everything before the
optional clauses). -/
def selectFromJoins (q : SelectQuery) : String :=
  "SELECT " ++ String.intercalate ", " ((projectedColumns q.table).map columnNameSql) ++
    " FROM " ++ quoteId q.table.core.tablename ++ " " ++
    String.intercalate " " (get_required_join_paths q.table).2

/-- The ORDER BY fragment of a sorter; independent of the counter value
since sorters bind no parameters. -/
def orderFragment (s : Sorter) : String :=
  String.intercalate ", " s.cols ++ " " ++ s.direction

/-- Claim C5: the compiled SQL text is the SELECT/FROM/JOIN prefix followed
by a WHERE clause joining the predicates with AND iff at least one
predicate exists, then a LIMIT clause iff a limit is set, then an OFFSET
clause iff an offset is set, then an ORDER BY clause iff an orderer is set,
in that fixed order; and a limit and offset of 0 are valid and produce the
text `LIMIT 0` / `OFFSET 0`. -/
theorem claim_C5_clause_order :
    (∀ q : SelectQuery,
      (generate_sql q).1 =
        selectFromJoins q ++
          (if q.conditions = [] then ""
           else " WHERE " ++
             String.intercalate " AND " (condFrags emit_param q.conditions 0)) ++
          (match q.row_limit with | none => "" | some n => " LIMIT " ++ intToDec n) ++
          (match q.row_offset with | none => "" | some n => " OFFSET " ++ intToDec n) ++
          (match q.orderer with | none => "" | some s => " ORDER BY " ++ orderFragment s)) ∧
    (generate_sql
        { table := { core := { tablename := "t", columns := ["id"] },
                     relationships := [] },
          conditions := [], row_limit := some 0, row_offset := some 0,
          orderer := none }).1 =
      "SELECT \"t\".\"id\" AS \"t_t_id\" FROM \"t\"  LIMIT 0 OFFSET 0" := by
  constructor
  · intro q
    have hfr := (condLoop_spec q.conditions 0 [] [] (by simp)).2.2.2
    rw [List.nil_append] at hfr
    simp only [generate_sql, hfr, selectFromJoins]
    cases hc : q.conditions with
    | nil =>
      simp only [condFrags, List.isEmpty_nil, if_true]
      cases q.row_limit <;> cases q.row_offset <;> cases q.orderer <;>
        simp [orderFragment, sorterGenSql, String.append_assoc, String.append_empty]
    | cons c rest =>
      have hne : (condFrags emit_param (c :: rest) 0).isEmpty = false := by
        cases hv : c.value <;> simp [condFrags, condGenSql, hv]
      simp only [hne, Bool.false_eq_true, if_false, reduceCtorEq]
      cases q.row_limit <;> cases q.row_offset <;> cases q.orderer <;>
        simp [orderFragment, sorterGenSql, String.append_assoc, String.append_empty]
  · rfl

theorem takeWhile_no_underscore (t rest : List Char) (h : '_' ∉ t) :
    (t ++ '_' :: rest).takeWhile (fun ch => ch != '_') = t := by
  induction t with
  | nil => simp [List.takeWhile_cons]
  | cons a t ih =>
    have ha : a ≠ '_' := by
      intro hcontra
      exact h (by simp [hcontra])
    have ht : '_' ∉ t := fun hmem => h (by simp [hmem])
    simp [List.takeWhile_cons, ha, ih ht]

theorem alias_name_data (t c : String) :
    (alias_name t c true).data =
      ['\"', 't', '_'] ++ t.data ++ '_' :: (c.data ++ ['\"']) := by
  simp only [alias_name, if_true, String.data_append]
  have h1 : ("\"" : String).data = ['\"'] := rfl
  have h2 : ("t_" : String).data = ['t', '_'] := rfl
  have h3 : ("_" : String).data = ['_'] := rfl
  simp [h1, h2, h3]

theorem alias_name_inj (t₁ c₁ t₂ c₂ : String)
    (h₁ : '_' ∉ t₁.data) (h₂ : '_' ∉ t₂.data)
    (h : alias_name t₁ c₁ true = alias_name t₂ c₂ true) : t₁ = t₂ ∧ c₁ = c₂ := by
  have hdata := congrArg String.data h
  rw [alias_name_data, alias_name_data, List.append_assoc, List.append_assoc] at hdata
  have hmid : t₁.data ++ '_' :: (c₁.data ++ ['\"']) =
      t₂.data ++ '_' :: (c₂.data ++ ['\"']) :=
    List.append_cancel_left hdata
  have htake := congrArg (List.takeWhile (fun ch => ch != '_')) hmid
  rw [takeWhile_no_underscore _ _ h₁, takeWhile_no_underscore _ _ h₂] at htake
  have ht : t₁ = t₂ := String.ext htake
  subst ht
  have hc : c₁.data ++ ['\"'] = c₂.data ++ ['\"'] := by
    have := List.append_cancel_left hmid
    exact List.tail_eq_of_cons_eq this
  exact ⟨rfl, String.ext (List.append_cancel_right hc)⟩

/-- Claim C3 counterexample: in a query over primary table `a_b` (one
column `c`) with an eagerly-joined table `a` (one column `b_c`), the
compiled projection holds the two distinct `(owning table, column name)`
pairs `("a_b","c")` and `("a","b_c")`, yet both are aliased to the same
name `"t_a_b_c"` — the alias scheme `t_<table>_<column>` is not
collision-free for arbitrary names. -/
theorem claim_C3_counterexample :
    projectedColumns
        { core := { tablename := "a_b", columns := ["c"] },
          relationships :=
            [{ load_type := "joined",
               foreign_table := { tablename := "a", columns := ["b_c"] },
               join_col1 := ("a", "k"), join_col2 := ("a_b", "k") }] } =
      [("a_b", "c"), ("a", "b_c")] ∧
    (("a_b", "c") : String × String) ≠ ("a", "b_c") ∧
    alias_name "a_b" "c" true = alias_name "a" "b_c" true := by
  refine ⟨by decide, by decide, by decide⟩

/-- Claim C3 (amended): the compiled projection lists every column of the
primary table first, then every column of each eagerly-joined table in
join order; and the alias `t_<table>_<column>` is collision-free for
distinct `(owning table, column name)` pairs provided the table names
contain no underscore character. -/
theorem claim_C3_projection_and_alias (q : SelectQuery) :
    projectedColumns q.table =
      q.table.core.columns.map (fun c => (q.table.core.tablename, c)) ++
        ((q.table.relationships.filter (fun r => r.load_type == "joined")).map
            (fun r => r.foreign_table)).flatMap
          (fun ft => ft.columns.map (fun c => (ft.tablename, c))) ∧
    (∀ p₁ p₂ : String × String, '_' ∉ p₁.1.data → '_' ∉ p₂.1.data → p₁ ≠ p₂ →
      alias_name p₁.1 p₁.2 true ≠ alias_name p₂.1 p₂.2 true) := by
  constructor
  · simp [projectedColumns, get_required_join_paths]
  · intro p₁ p₂ h₁ h₂ hne hcontra
    obtain ⟨ht, hc⟩ := alias_name_inj p₁.1 p₁.2 p₂.1 p₂.2 h₁ h₂ hcontra
    exact hne (Prod.ext ht hc)

/-- Claim C3 witness: on a concrete one-join query with underscore-free
table names `users` and `posts`, the projection is the primary table's
columns then the joined table's columns, and the shared column name `id`
gets distinct aliases. -/
theorem claim_C3_projection_and_alias_witness :
    projectedColumns
        { core := { tablename := "users", columns := ["id", "name"] },
          relationships :=
            [{ load_type := "joined",
               foreign_table := { tablename := "posts", columns := ["id"] },
               join_col1 := ("posts", "uid"), join_col2 := ("users", "id") }] } =
      [("users", "id"), ("users", "name"), ("posts", "id")] ∧
    alias_name "users" "id" true ≠ alias_name "posts" "id" true := by
  have h := claim_C3_projection_and_alias
    { table := { core := { tablename := "users", columns := ["id", "name"] },
                 relationships :=
                   [{ load_type := "joined",
                      foreign_table := { tablename := "posts", columns := ["id"] },
                      join_col1 := ("posts", "uid"), join_col2 := ("users", "id") }] },
      conditions := [], row_limit := none, row_offset := none, orderer := none }
  refine ⟨?_, ?_⟩
  · rw [h.1]
    decide
  · exact h.2 ("users", "id") ("posts", "id") (by decide) (by decide) (by decide)

/-- An argument to `order_by`: a column (here by name) or an already-built
`Sorter`. -/
inductive OrderArg where
  | col (name : String)
  | sorter (s : Sorter)
deriving Repr, DecidableEq

/-- The rendering an argument contributes when `AscSorter(*col)` /
`DescSorter(*col)` wraps it (modelled from the spec: the sorter classes
live in the operator layer, not under `src/`). -/
def orderArgName : OrderArg → String
  | .col n => n
  | .sorter s => String.intercalate ", " s.cols ++ " " ++ s.direction

/-- `SelectQuery.order_by`: zero arguments raise `TypeError`; a single
`Sorter` argument is installed as-is (the `sort_order` argument is not
consulted on that path); otherwise `sort_order` selects `AscSorter` /
`DescSorter`, and any other direction raises `TypeError`.  Raising becomes
`Except.error`; no session or I/O interaction occurs. -/
def order_by (q : SelectQuery) (col : List OrderArg) (sort_order : String) :
    Except String SelectQuery :=
  match col with
  | [] => .error "Must provide at least one item to order with"
  | [.sorter s] => .ok { q with orderer := some s }
  | _ =>
    if sort_order == "asc" then
      let s : Sorter := { direction := "ASC", cols := col.map orderArgName }
      .ok { q with orderer := some s }
    else if sort_order == "desc" then
      let s : Sorter := { direction := "DESC", cols := col.map orderArgName }
      .ok { q with orderer := some s }
    else .error ("Unknown sort order " ++ sort_order)

/-- Claim C6 counterexample: calling `order_by` with a sort direction that
is neither `"asc"` nor `"desc"` does not raise when the single argument is
an already-built `Sorter` — the direction is silently ignored, so the claim
that an unknown direction always raises is false. -/
theorem claim_C6_counterexample :
    order_by
        { table := { core := { tablename := "t", columns := ["id"] },
                     relationships := [] },
          conditions := [], row_limit := none, row_offset := none,
          orderer := none }
        [.sorter { direction := "ASC", cols := ["id"] }] "bogus" =
      .ok { table := { core := { tablename := "t", columns := ["id"] },
                       relationships := [] },
            conditions := [], row_limit := none, row_offset := none,
            orderer := some { direction := "ASC", cols := ["id"] } } := rfl

/-- Claim C6 (amended): `order_by` with zero arguments raises an error, and
`order_by` with a sort direction other than `"asc"`/`"desc"` raises an
error unless the single argument is an already-built `Sorter` (in which
case the direction is ignored); both errors are returned synchronously by
the pure builder method, before any I/O. -/
theorem claim_C6_order_by_errors :
    (∀ (q : SelectQuery) (d : String),
      order_by q [] d = .error "Must provide at least one item to order with") ∧
    (∀ (q : SelectQuery) (args : List OrderArg) (d : String),
      args ≠ [] → (∀ s, args ≠ [.sorter s]) → d ≠ "asc" → d ≠ "desc" →
      order_by q args d = .error ("Unknown sort order " ++ d)) := by
  constructor
  · intro q d
    rfl
  · intro q args d hne hs hasc hdesc
    have hasc' : (d == "asc") = false := by
      simp [hasc]
    have hdesc' : (d == "desc") = false := by
      simp [hdesc]
    match args with
    | [] => exact absurd rfl hne
    | [.sorter s] => exact absurd rfl (hs s)
    | [.col n] => simp [order_by, hasc', hdesc']
    | a :: b :: rest => cases a <;> simp [order_by, hasc', hdesc']

/-- Claim C6 witness: both error paths fire on concrete inputs — ordering
by zero columns, and ordering by one plain column with direction
`"sideways"`. -/
theorem claim_C6_order_by_errors_witness :
    order_by
        { table := { core := { tablename := "t", columns := ["id"] },
                     relationships := [] },
          conditions := [], row_limit := none, row_offset := none,
          orderer := none } [] "asc" =
      .error "Must provide at least one item to order with" ∧
    order_by
        { table := { core := { tablename := "t", columns := ["id"] },
                     relationships := [] },
          conditions := [], row_limit := none, row_offset := none,
          orderer := none } [.col "id"] "sideways" =
      .error ("Unknown sort order " ++ "sideways") := by
  constructor
  · exact claim_C6_order_by_errors.1 _ "asc"
  · exact claim_C6_order_by_errors.2 _ [.col "id"] "sideways" (by decide)
      (fun s => by simp) (by decide) (by decide)

end SelectSql

/-! ## `Column.__eq__` / `Column.__ne__` — comparison dispatch

Embeds the rich-comparison methods of `orm/schema/column.py`.  Python
compares the owning table objects by identity; tables are therefore
identified by an id. -/

namespace ColumnCmp

/-- A `Column` as `__eq__`/`__ne__` read it: owning table identity and
column name. -/
structure Column where
  tableId : Nat
  name : String
deriving Repr, DecidableEq

/-- The right operand of a comparison: another `Column`, or any non-Column
value (embedded opaquely). -/
inductive Operand where
  | column (c : Column)
  | value (v : String)
deriving Repr, DecidableEq

/-- What a rich comparison on a `Column` returns: a plain `bool`, or an
operator object of the predicate layer. -/
inductive CmpResult where
  | boolean (b : Bool)
  | predicate (op : String) (lhs : Column) (rhs : Operand)
deriving Repr, DecidableEq

/-- `Column.__eq__`: against another `Column`, a plain bool — same table
and same name; against anything else, an `operators.Eq` predicate. -/
def eq (self : Column) (other : Operand) : CmpResult :=
  match other with
  | .column o => .boolean (self.tableId == o.tableId && self.name == o.name)
  | .value v => .predicate "Eq" self (.value v)

/-- `Column.__ne__`: against another `Column`, a plain bool — different
table or different name; against anything else, an `operators.NEq`
predicate. -/
def ne (self : Column) (other : Operand) : CmpResult :=
  match other with
  | .column o => .boolean (self.tableId != o.tableId || self.name != o.name)
  | .value v => .predicate "NEq" self (.value v)

/-- Claim C7: comparing two `Column`s for equality returns a plain boolean
that is true iff they have the same table and the same name, and comparing
a `Column` to a non-Column value returns an `Eq` predicate object, never a
boolean; inequality behaves dually. -/
theorem claim_C7_eq_dispatch :
    (∀ c₁ c₂ : Column, eq c₁ (.column c₂) =
        .boolean (decide (c₁.tableId = c₂.tableId ∧ c₁.name = c₂.name))) ∧
    (∀ (c : Column) (v : String), eq c (.value v) = .predicate "Eq" c (.value v)) ∧
    (∀ c₁ c₂ : Column, ne c₁ (.column c₂) =
        .boolean (!decide (c₁.tableId = c₂.tableId ∧ c₁.name = c₂.name))) ∧
    (∀ (c : Column) (v : String), ne c (.value v) = .predicate "NEq" c (.value v)) := by
  refine ⟨?_, fun c v => rfl, ?_, fun c v => rfl⟩
  · intro c₁ c₂
    by_cases h₁ : c₁.tableId = c₂.tableId <;> by_cases h₂ : c₁.name = c₂.name <;>
      simp [eq, h₁, h₂]
  · intro c₁ c₂
    by_cases h₁ : c₁.tableId = c₂.tableId <;> by_cases h₂ : c₁.name = c₂.name <;>
      simp [ne, h₁, h₂]

end ColumnCmp

/-! ## `SelectQuery.map_columns` — row mapping and its error path

Embeds `SelectQuery.map_columns` from `orm/query.py`.  The row type's
constructor is an external collaborator (`TableRow` is not under `src/`)
and is modelled from the spec. -/

namespace MapColumns

/-- A table as `map_columns` consumes it, together with — modelled from the
spec — the keyword names its row type's `__init__` accepts (§6: row-object
construction is a collaborator contract). -/
structure Table where
  tablename : String
  columns : List String
  acceptedKwargs : List String
deriving Repr, DecidableEq

/-- Modelled from the spec: `self.table(**row_expando)` raises `TypeError`
when a passed keyword is not accepted by the row type's constructor. -/
def construct (t : Table) (kwargs : List (String × String)) :
    Except String (List (String × String)) :=
  if kwargs.all (fun p => t.acceptedKwargs.contains p.1) then .ok kwargs
  else .error "TypeError: unexpected keyword argument"

/-- The message of the `TypeError` re-raised by `map_columns`.  Note that
the two adjacent string literals in the source concatenate without a
space ("allowall"). -/
def mapErrorMessage : String :=
  "Failed to initialize a new row object. Does your `__init__` allow" ++
    "all columns to be passed as values?"

/-- The mapped row `map_columns` returns: constructor fields, attached
relationship data, the existed flag and the previous-values snapshot. -/
structure TableRow where
  fields : List (String × String)
  relationData : List (String × String)
  existed : Bool
  previousValues : List (String × String)
deriving Repr, DecidableEq

/-- The `row_expando` dict of `map_columns`: fetched values whose alias
matches one of the table's own columns, keyed back to real column names. -/
def rowExpando (t : Table) (results : List (String × String)) :
    List (String × String) :=
  let mapping := t.columns.map (fun c => (SelectSql.alias_name t.tablename c false, c))
  results.filterMap (fun p => (mapping.lookup p.1).map (fun cname => (cname, p.2)))

/-- The `relation_data` dict of `map_columns`: every fetched value whose
alias is not one of the table's own columns, kept under its alias. -/
def relationData (t : Table) (results : List (String × String)) :
    List (String × String) :=
  let mapping := t.columns.map (fun c => (SelectSql.alias_name t.tablename c false, c))
  results.filter (fun p => (mapping.lookup p.1).isNone)

/-- `SelectQuery.map_columns`: split the fetched aliased columns into own
columns and relationship data, construct the row object, snapshot previous
values, flag it as existed and attach the relationship data.  A `TypeError`
from construction is re-raised with the fixed message. -/
def map_columns (t : Table) (results : List (String × String)) :
    Except String TableRow :=
  match construct t (rowExpando t results) with
  | .error _ => .error mapErrorMessage
  | .ok fields =>
    .ok { fields := fields, relationData := relationData t results,
          existed := true, previousValues := fields }

set_option maxRecDepth 8192 in
/-- Claim C8 counterexample: mapping the fetched columns
`{"t_t_zzz_col": "1"}` against a table whose row type accepts no keyword
raises the fixed `TypeError` message, and that message does not name the
offending column `zzz_col` (it is not even a substring). -/
theorem claim_C8_counterexample :
    map_columns
        { tablename := "t", columns := ["zzz_col"], acceptedKwargs := [] }
        [("t_t_zzz_col", "1")] = .error mapErrorMessage ∧
    ¬ List.IsInfix "zzz_col".data mapErrorMessage.data := by
  refine ⟨rfl, by decide⟩

/-- Claim C8 (amended): when row construction rejects the projected column
set, `map_columns` surfaces a `TypeError` to the caller — it is re-raised,
not swallowed — but its message is the fixed remediation text, which does
not name the offending columns. -/
theorem claim_C8_mapping_error (t : Table) (results : List (String × String))
    (h : (rowExpando t results).all
      (fun p => t.acceptedKwargs.contains p.1) = false) :
    map_columns t results = .error mapErrorMessage := by
  unfold map_columns construct
  rw [h]
  simp

/-- Claim C8 witness: `claim_C8_mapping_error` fires on the concrete
offending input of the counterexample. -/
theorem claim_C8_mapping_error_witness :
    map_columns
        { tablename := "t", columns := ["zzz_col"], acceptedKwargs := [] }
        [("t_t_zzz_col", "1")] = .error mapErrorMessage :=
  claim_C8_mapping_error
    { tablename := "t", columns := ["zzz_col"], acceptedKwargs := [] }
    [("t_t_zzz_col", "1")] (by decide)

end MapColumns

/-! ## `InsertQuery` / `RowUpdateQuery` / `RowDeleteQuery` — batch compile

Embeds the three mutation builders of `orm/query.py`.  Each `generate_sql`
creates one `itertools.count()` counter, builds the local
`emit = lambda: "param_{}".format(next(counter))` factory, and asks every
held row for its own `(sql, params)` pair.  The per-row SQL generation
(`TableRow._get_insert_sql` etc.) is an external collaborator modelled from
the spec. -/

namespace Batch

/-- Modelled from the spec: a held row object, represented by the values
its generated statement binds, in binding order (§6: row persistence
collaborator; `TableRow` is not under `src/`). -/
structure TableRow where
  vals : List String
deriving Repr, DecidableEq

/-- Modelled from the spec: `row._get_insert_sql(emit, session)` (and the
update/delete counterparts) produce `(sql, params)` by calling the
placeholder factory once per bound value and binding exactly the returned
names. -/
def rowGenSql (stmt : String) (row : TableRow) (counter : Nat) :
    (String × List (String × String)) × Nat :=
  let names := (List.range row.vals.length).map
    (fun i => SelectSql.emit_param (counter + i))
  ((stmt ++ " " ++ String.intercalate ", " names, names.zip row.vals),
    counter + row.vals.length)

/-- The `for row in rows` loop shared by the three `generate_sql`s: one
`(sql, params)` pair per held row, threading the single shared counter
across the whole compile call. -/
def batchLoop (stmt : String) :
    List TableRow → Nat → List (String × List (String × String))
  | [], _ => []
  | r :: rest, counter =>
    let q := rowGenSql stmt r counter
    q.1 :: batchLoop stmt rest q.2

/-- `InsertQuery`: the accumulated `rows_to_insert`. -/
structure InsertQuery where
  rows_to_insert : List TableRow
deriving Repr, DecidableEq

/-- `RowUpdateQuery`: the accumulated `rows_to_update`. -/
structure RowUpdateQuery where
  rows_to_update : List TableRow
deriving Repr, DecidableEq

/-- `RowDeleteQuery`: the accumulated `rows_to_delete`. -/
structure RowDeleteQuery where
  rows_to_delete : List TableRow
deriving Repr, DecidableEq

/-- `InsertQuery.generate_sql`: fresh counter, one `(sql, params)` pair per
held row. -/
def InsertQuery.generate_sql (q : InsertQuery) :
    List (String × List (String × String)) :=
  batchLoop "INSERT" q.rows_to_insert 0

/-- `RowUpdateQuery.generate_sql`: fresh counter, one pair per held row. -/
def RowUpdateQuery.generate_sql (q : RowUpdateQuery) :
    List (String × List (String × String)) :=
  batchLoop "UPDATE" q.rows_to_update 0

/-- `RowDeleteQuery.generate_sql`: fresh counter, one pair per held row. -/
def RowDeleteQuery.generate_sql (q : RowDeleteQuery) :
    List (String × List (String × String)) :=
  batchLoop "DELETE" q.rows_to_delete 0

/-- All placeholder names bound across a compiled statement list, in
order. -/
def allNames (qs : List (String × List (String × String))) : List String :=
  qs.flatMap (fun q => q.2.map Prod.fst)

/-- Total number of values bound across all held rows. -/
def totalVals (rows : List TableRow) : Nat :=
  (rows.map (fun r => r.vals.length)).sum

theorem allNames_cons (q : String × List (String × String))
    (qs : List (String × List (String × String))) :
    allNames (q :: qs) = q.2.map Prod.fst ++ allNames qs := by
  simp [allNames]

theorem batchLoop_length (stmt : String) (rows : List TableRow) :
    ∀ counter, (batchLoop stmt rows counter).length = rows.length := by
  induction rows with
  | nil => intro counter; rfl
  | cons r rest ih => intro counter; simp [batchLoop, ih]

theorem batchLoop_names (stmt : String) (rows : List TableRow) :
    ∀ counter, allNames (batchLoop stmt rows counter) =
      (List.range (totalVals rows)).map
        (fun i => SelectSql.emit_param (counter + i)) := by
  induction rows with
  | nil => intro counter; simp [batchLoop, allNames, totalVals]
  | cons r rest ih =>
    intro counter
    have hzip : (((List.range r.vals.length).map
          (fun i => SelectSql.emit_param (counter + i))).zip r.vals).map Prod.fst =
        (List.range r.vals.length).map (fun i => SelectSql.emit_param (counter + i)) := by
      apply List.map_fst_zip
      simp
    have htot : totalVals (r :: rest) = r.vals.length + totalVals rest := by
      simp [totalVals]
    rw [show batchLoop stmt (r :: rest) counter =
        (rowGenSql stmt r counter).1 ::
          batchLoop stmt rest (rowGenSql stmt r counter).2 from rfl]
    rw [allNames_cons]
    have hfst : (rowGenSql stmt r counter).1.2.map Prod.fst =
        (List.range r.vals.length).map
          (fun i => SelectSql.emit_param (counter + i)) := by
      simp only [rowGenSql]
      exact hzip
    have hsnd : (rowGenSql stmt r counter).2 = counter + r.vals.length := rfl
    rw [hfst, hsnd, ih (counter + r.vals.length), htot, List.range_add,
      List.map_append, List.map_map]
    refine congrArg _ ?_
    apply List.map_congr_left
    intro i _
    show SelectSql.emit_param _ = SelectSql.emit_param _
    refine congrArg SelectSql.emit_param ?_
    simp only [hsnd]
    omega

theorem batchLoop_names_nodup (stmt : String) (rows : List TableRow)
    (counter : Nat) : (allNames (batchLoop stmt rows counter)).Nodup := by
  rw [batchLoop_names]
  refine (List.nodup_range _).map ?_
  intro a b h
  have := SelectSql.emit_param_injective h
  omega

/-- Claim C9: each of the three mutation builders holding N rows compiles
to exactly N `(sql, params)` pairs, one per held row in insertion order,
and — because one placeholder counter is shared across the whole compile
call — no placeholder name occurs twice anywhere in the batch (in
particular never in the params of two different pairs). -/
theorem claim_C9_batch_independent_pairs :
    (∀ q : InsertQuery, q.generate_sql.length = q.rows_to_insert.length ∧
      (allNames q.generate_sql).Nodup) ∧
    (∀ q : RowUpdateQuery, q.generate_sql.length = q.rows_to_update.length ∧
      (allNames q.generate_sql).Nodup) ∧
    (∀ q : RowDeleteQuery, q.generate_sql.length = q.rows_to_delete.length ∧
      (allNames q.generate_sql).Nodup) :=
  ⟨fun q => ⟨batchLoop_length _ _ 0, batchLoop_names_nodup _ _ 0⟩,
   fun q => ⟨batchLoop_length _ _ 0, batchLoop_names_nodup _ _ 0⟩,
   fun q => ⟨batchLoop_length _ _ 0, batchLoop_names_nodup _ _ 0⟩⟩

/-- `InsertQuery.add_row`: append the row and `return self` — the second
component is the Python return value, the chainable query object itself. -/
def InsertQuery.add_row (q : InsertQuery) (row : TableRow) :
    InsertQuery × Option InsertQuery :=
  let q' : InsertQuery := { rows_to_insert := q.rows_to_insert ++ [row] }
  (q', some q')

/-- `RowUpdateQuery.add_row`: append the row and `return self`. -/
def RowUpdateQuery.add_row (q : RowUpdateQuery) (row : TableRow) :
    RowUpdateQuery × Option RowUpdateQuery :=
  let q' : RowUpdateQuery := { rows_to_update := q.rows_to_update ++ [row] }
  (q', some q')

/-- `RowDeleteQuery.add_row`: append the row; the method body has no
`return` statement, so the Python return value is `None`. -/
def RowDeleteQuery.add_row (q : RowDeleteQuery) (row : TableRow) :
    RowDeleteQuery × Option RowDeleteQuery :=
  let q' : RowDeleteQuery := { rows_to_delete := q.rows_to_delete ++ [row] }
  (q', none)

/-- Claim C10: `InsertQuery.add_row` and `RowUpdateQuery.add_row` append
the row and return the query object itself (so calls chain), but
`RowDeleteQuery.add_row` appends the row and returns `None`, so chaining on
its result fails even though the row was recorded. -/
theorem claim_C10_add_row_return_values :
    (∀ (q : InsertQuery) (r : TableRow),
      (q.add_row r).2 = some (q.add_row r).1 ∧
      (q.add_row r).1.rows_to_insert = q.rows_to_insert ++ [r]) ∧
    (∀ (q : RowUpdateQuery) (r : TableRow),
      (q.add_row r).2 = some (q.add_row r).1 ∧
      (q.add_row r).1.rows_to_update = q.rows_to_update ++ [r]) ∧
    (∀ (q : RowDeleteQuery) (r : TableRow),
      (q.add_row r).2 = none ∧
      (q.add_row r).1.rows_to_delete = q.rows_to_delete ++ [r]) :=
  ⟨fun q r => ⟨rfl, rfl⟩, fun q r => ⟨rfl, rfl⟩, fun q r => ⟨rfl, rfl⟩⟩

end Batch

end Asyncqlio
